import Mathlib

set_option autoImplicit false

/-!
Verification development for the liquid-section-renderer web component
(file src/liquid-section-renderer.js).  The JavaScript is shallowly
embedded: attribute reads become Option String values, JSON field values
become a small JsVal type, the DOM patch target becomes an association
list from selector to child list, and the event/history side effects are
made explicit in a state record.  Each definition mirrors one function of
the source file; the fetch itself is abstracted by an outcome parameter,
since its result only enters the pipeline through the parsed response.
-/

/-- A JavaScript value as it appears in the fields of an update descriptor
coming from the JSON `updates` attribute: a string, the JSON null, or
undefined (absent field).  Non-string non-null primitives behave like
undefined for every check the component performs, so they share the
`vundef` constructor. -/
inductive JsVal : Type
| vstr (s : String)
| vnull
| vundef
deriving DecidableEq, Repr

/-- JavaScript ToString coercion used when a value is used as a property
key or a selector. -/
def jsKeyStr : JsVal → String
| JsVal.vstr s => s
| JsVal.vnull => "null"
| JsVal.vundef => "undefined"

/-- JavaScript truthiness of a JsVal. -/
def truthy : JsVal → Bool
| JsVal.vstr s => s ≠ ""
| _ => false

/-- The `typeof v === "string"` test. -/
def isString : JsVal → Bool
| JsVal.vstr _ => true
| _ => false

/-- The `getAttribute(name) || null` idiom: an absent attribute or the
empty string both collapse to null. -/
def jsOrNull : Option String → Option String
| some "" => none
| o => o

/-- One entry of the `updates` array: the four fields the component
destructures.  The source field named `section` is called `sectionId`
here because `section` is a reserved word in Lean. -/
structure Update where
  sectionId : JsVal
  destination : JsVal
  updateMode : JsVal
  query : JsVal
deriving DecidableEq, Repr

/-- A batch entry as produced by `_getUpdatesArray`: `none` models a JSON
null array entry (destructuring it throws), `some u` models an object
entry.  Non-object non-null entries behave like an object whose fields
are all undefined for every check performed, so they are represented the
same way. -/
abbrev BatchEntry := Option Update

/-- Source `_isValidUpdates`: every entry must be a truthy object whose
`section` and `destination` fields are strings.  Note that the empty
string passes this test. -/
def isValidUpdates (updates : List BatchEntry) : Bool :=
  updates.all fun u =>
    match u with
    | none => false
    | some u => isString u.sectionId && isString u.destination

/-- Result of `_getClosestSection`: no ancestor with the marker class, an
ancestor found but carrying no id attribute (reading `.replace` of null
throws), or the derived pair of section handle and destination selector. -/
inductive ClosestRes : Type
| noParent
| parentNoId
| found (sectionId dest : String)
deriving DecidableEq, Repr

/-- The attribute configuration of one trigger element at activation
time.  `updatesAttr` is the update list returned by `_getUpdatesArray`
(empty when the attribute is absent or malformed); `closest` is the
outcome of `_getClosestSection`. -/
structure TriggerCfg where
  updatesAttr : List BatchEntry
  modeAttr : Option String
  queryAttr : Option String
  sectionAttr : Option String
  destAttr : Option String
  closest : ClosestRes
deriving DecidableEq, Repr

/-- Single-action resolution inside `_handleTrigger` (lines 149-170 of the
source): read mode, query, section, destination; throw when section or
destination is missing and there is no closest section; flip the scopedFlag
flag to false when both are missing yet a closest section exists; fill the
missing pieces from the closest section and synthesize one descriptor. -/
def resolveSingle (scopedFlag : Bool) (t : TriggerCfg) (closest : Option (String × String)) :
    Except Unit (Bool × List BatchEntry) :=
  let updateMode := (jsOrNull t.modeAttr).getD "replace"
  let query : JsVal :=
    match jsOrNull t.queryAttr with
    | some q => JsVal.vstr q
    | none => JsVal.vnull
  let sec := jsOrNull t.sectionAttr
  let dest := jsOrNull t.destAttr
  if (sec.isNone || dest.isNone) && closest.isNone then
    Except.error ()
  else
    let scopedFlag' := if sec.isNone && dest.isNone && closest.isSome then false else scopedFlag
    let secV : String :=
      match sec, closest with
      | some s, _ => s
      | none, some c => c.1
      | none, none => ""
    let destV : String :=
      match dest, closest with
      | some d, _ => d
      | none, some c => c.2
      | none, none => ""
    Except.ok (scopedFlag',
      [some { sectionId := JsVal.vstr secV, destination := JsVal.vstr destV,
              updateMode := JsVal.vstr updateMode, query := query }])

/-- Update resolution of `_handleTrigger` (lines 144-171): use the parsed
`updates` attribute when nonempty, otherwise run `_getClosestSection`
(which throws when the ancestor has no id) and the single-action path.
Returns the possibly-updated scopedFlag flag together with the batch. -/
def resolveUpdates (scopedFlag : Bool) (t : TriggerCfg) :
    Except Unit (Bool × List BatchEntry) :=
  if t.updatesAttr.isEmpty then
    match t.closest with
    | ClosestRes.parentNoId => Except.error ()
    | ClosestRes.noParent => resolveSingle scopedFlag t none
    | ClosestRes.found s d => resolveSingle scopedFlag t (some (s, d))
  else
    Except.ok (scopedFlag, t.updatesAttr)

/-- A node in a destination child list: a section element carrying an
abstract identity, or the text node produced when `Element.prepend`
receives null and coerces it to the string form. -/
inductive JNode (α : Type) : Type
| el (a : α)
| textNull
deriving DecidableEq, Repr

/-- The patching environment: `sectionEl s` is the element found by
parsing the response fragment for section `s` and querying its
conventional root id (none when the response lacks the key or the markup
lacks the element); `queryEl e q` is the sub-element of `e` matched by
the query selector `q`. -/
structure PatchEnv (α : Type) where
  sectionEl : String → Option α
  queryEl : α → String → Option α

/-- The part of the document visible to the element lookups of one
instance, as an association list from destination selector to child
list. -/
abbrev Dom (α : Type) := List (String × List (JNode α))

/-- Replace the child list stored under a destination selector. -/
def setDest {α : Type} (dom : Dom α) (d : String) (cs : List (JNode α)) : Dom α :=
  dom.map fun p => if p.1 = d then (p.1, cs) else p

/-- One iteration of the `updates.forEach` body of `_updateSection`
(lines 436-464).  The boolean is false exactly when the body throws:
destructuring a null entry, querying inside a null section element,
a missing destination element, or appending a null section element.
`Element.prepend(null)` does not throw; it inserts a text node.  In
replace mode the destination is cleared before the append, so a null
section element leaves it emptied. -/
def patchOne {α : Type} (env : PatchEnv α) (dom : Dom α) (u : BatchEntry) :
    Dom α × Bool :=
  match u with
  | none => (dom, false)
  | some u =>
    let sEl := env.sectionEl (jsKeyStr u.sectionId)
    let narrowed : Except Unit (Option α) :=
      if truthy u.query then
        match sEl with
        | none => Except.error ()
        | some e => Except.ok (some ((env.queryEl e (jsKeyStr u.query)).getD e))
      else Except.ok sEl
    match narrowed with
    | Except.error _ => (dom, false)
    | Except.ok sEl =>
      let destKey := jsKeyStr u.destination
      match List.lookup destKey dom with
      | none => (dom, false)
      | some children =>
        match u.updateMode with
        | JsVal.vstr "after" | JsVal.vstr "append" =>
          match sEl with
          | some e => (setDest dom destKey (children ++ [JNode.el e]), true)
          | none => (dom, false)
        | JsVal.vstr "before" | JsVal.vstr "prepend" =>
          let nd : JNode α :=
            match sEl with
            | some e => JNode.el e
            | none => JNode.textNull
          (setDest dom destKey (nd :: children), true)
        | JsVal.vstr "replace" | JsVal.vnull =>
          match sEl with
          | some e => (setDest dom destKey [JNode.el e], true)
          | none => (setDest dom destKey [], false)
        | _ => (dom, true)

/-- Source `_updateSection`: apply the descriptors in order; a throw in
one iteration aborts the remaining iterations; the surrounding catch only
logs, so the function always returns the document reached so far. -/
def updateSection {α : Type} (env : PatchEnv α) (dom : Dom α) :
    List BatchEntry → Dom α
| [] => dom
| u :: rest =>
  match patchOne env dom u with
  | (dom', true) => updateSection env dom' rest
  | (dom', false) => dom'

/-- A recorded call to the browser history API. -/
inductive HistOp : Type
| push (url : String)
| replaceSt (url : String)
deriving DecidableEq, Repr

/-- Instance-level configuration relevant to `_updateHistory`. -/
structure ICfg where
  updateUrl : Option String
  updateTitle : Option String
  historyMode : String
deriving DecidableEq, Repr

/-- Source `_updateHistory`: when an update url is configured, write it
by push or replace according to the history mode (any other mode writes
nothing); when an update title is configured, set the document title. -/
def updateHistory (cfg : ICfg) (hist : List HistOp) (title : Option String) :
    List HistOp × Option String :=
  let hist' :=
    match cfg.updateUrl with
    | some u =>
      match cfg.historyMode with
      | "add" | "push" => hist ++ [HistOp.push u]
      | "replace" => hist ++ [HistOp.replaceSt u]
      | _ => hist
    | none => hist
  let title' :=
    match cfg.updateTitle with
    | some t => some t
    | none => title
  (hist', title')

/-- The lifecycle events observable from one activation.  `fetchStart`
marks the moment the fetch race is issued. -/
inductive Ev : Type
| started
| ended
| error
| fetchStart
deriving DecidableEq, BEq, Repr

/-- Source `_toggleLoading`: flip the loading flag and emit started when
the new value is true, ended when it is false.  The loading indicator
class or display toggling tracks the same flag. -/
def toggleLoading (loading : Bool) : Bool × Ev :=
  let l := !loading
  (l, if l then Ev.started else Ev.ended)

/-- Outcome of the race between `_fetchSections` and `_requestTimeout`:
either the parsed response is available (its content enters the model
through PatchEnv.sectionEl) or the race rejected (build failure, network
error, non-ok status, JSON parse failure, or timeout). -/
inductive FetchOutcome : Type
| ok
| fail
deriving DecidableEq, Repr

/-- The mutable state one activation can touch: the scopedFlag flag, the
loading flag, the visible document, the history log and the title. -/
structure St (α : Type) where
  scopedFlag : Bool
  loading : Bool
  dom : Dom α
  hist : List HistOp
  title : Option String

/-- Source `_handleTrigger` (lines 141-194): resolve the batch, validate
it, toggle loading, race the fetch, patch and update history on success;
the catch emits the error event; the finally block calls
`_toggleLoading` again whatever happened before.  The returned list is
the event trace of this activation in emission order. -/
def handleTrigger {α : Type} (cfg : ICfg) (env : PatchEnv α) (t : TriggerCfg)
    (fetch : FetchOutcome) (st : St α) : St α × List Ev :=
  match resolveUpdates st.scopedFlag t with
  | Except.error _ =>
    let (l, ev) := toggleLoading st.loading
    ({ st with loading := l }, [Ev.error, ev])
  | Except.ok (scopedFlag', updates) =>
    let st := { st with scopedFlag := scopedFlag' }
    if isValidUpdates updates then
      let (l, ev1) := toggleLoading st.loading
      let st := { st with loading := l }
      match fetch with
      | FetchOutcome.fail =>
        let (l2, ev2) := toggleLoading st.loading
        ({ st with loading := l2 }, [ev1, Ev.fetchStart, Ev.error, ev2])
      | FetchOutcome.ok =>
        let dom' := updateSection env st.dom updates
        let ht := updateHistory cfg st.hist st.title
        let (l2, ev2) := toggleLoading st.loading
        ({ st with dom := dom', hist := ht.1, title := ht.2, loading := l2 },
         [ev1, Ev.fetchStart, ev2])
    else
      let (l, ev) := toggleLoading st.loading
      ({ st with loading := l }, [Ev.error, ev])

/-- An activation fails at the boundary guarded by the catch block of
`_handleTrigger` exactly when resolution throws, validation rejects the
batch, or the fetch race rejects.  Patching is not represented here
because its failures are swallowed inside `_updateSection`. -/
def activationFails (scopedFlag : Bool) (t : TriggerCfg) (fetch : FetchOutcome) : Bool :=
  match resolveUpdates scopedFlag t with
  | Except.error _ => true
  | Except.ok (_, updates) =>
    !(isValidUpdates updates) ||
      (match fetch with
       | FetchOutcome.fail => true
       | FetchOutcome.ok => false)

/-- Which root an element lookup runs against. -/
inductive SearchScope : Type
| subtree
| wholeDocument
deriving DecidableEq, Repr

/-- Source `_findElement` reduced to the root it queries: the instance
subtree when the scoped flag or the force flag is set, the whole document
otherwise. -/
def findElement (scopedFlag : Bool) (forceScoped : Bool) : SearchScope :=
  if scopedFlag || forceScoped then SearchScope.subtree else SearchScope.wholeDocument

/-- The `_acceptedEvents` table of the constructor. -/
def acceptedEvents : List (String × String) :=
  [("*", "click"), ("button", "click"), ("form", "submit"),
   ("input", "input"), ("select", "change"), ("textarea", "input")]

/-- Source `_getEventType`: look the lowercased tag name up in the table
and fall back to the wildcard entry when the lookup is undefined or
falsy. -/
def getEventType (tag : String) : String :=
  match List.lookup tag acceptedEvents with
  | some ev => if ev = "" then (List.lookup ("*") acceptedEvents).getD "" else ev
  | none => (List.lookup ("*") acceptedEvents).getD ""

/-- Source `_addEventListeners` loop body over the discovered triggers:
compute the event type of each, throw on a falsy event type, otherwise
record one binding per trigger in iteration order.  `tagOf` reads the
lowercased tag name of a trigger element. -/
def addEventListeners {τ : Type} (tagOf : τ → String) :
    List τ → Except Unit (List (τ × String))
| [] => Except.ok []
| tr :: rest =>
  let et := getEventType (tagOf tr)
  if et = "" then Except.error ()
  else
    match addEventListeners tagOf rest with
    | Except.ok bs => Except.ok ((tr, et) :: bs)
    | Except.error e => Except.error e

/-- A base render url as structured data: the path part and the query
parameters already present.  This abstracts the parsing performed by the
URL constructor; the current page pathname never carries parameters. -/
structure RenderUrl where
  path : String
  params : List (String × String)
deriving DecidableEq, Repr

/-- Drop every parameter with the given key. -/
def removeParam (k : String) : List (String × String) → List (String × String)
| [] => []
| p :: rest => if p.1 = k then removeParam k rest else p :: removeParam k rest

/-- URLSearchParams.set: overwrite the first occurrence of the key in
place, delete the remaining occurrences, or append when absent. -/
def setParam (k v : String) : List (String × String) → List (String × String)
| [] => [(k, v)]
| p :: rest => if p.1 = k then (k, v) :: removeParam k rest else p :: setParam k v rest

/-- All values carried by a key, in order. -/
def getAll (k : String) : List (String × String) → List String
| [] => []
| p :: rest => if p.1 = k then p.2 :: getAll k rest else getAll k rest

/-- JavaScript String.prototype.trim: drop whitespace from both ends,
modelled over the character list. -/
def jsTrim (s : String) : String :=
  String.mk
    ((((s.data.dropWhile Char.isWhitespace).reverse.dropWhile Char.isWhitespace).reverse))

/-- The sections parameter value of `_buildUrl`: the list joined with
commas, then trimmed as a whole. -/
def joinSections (sections : List String) : String :=
  jsTrim (String.intercalate ("," ) sections)

/-- Source `_buildUrl`: pick the base from the trigger-level render-url
attribute, else the instance-level one, else the page pathname (the
falsy-or chain, with absent and empty attributes both modelled as none),
then set the sections parameter on the query of the base. -/
def buildUrl (sections : List String) (triggerUrl instanceUrl : Option RenderUrl)
    (pathname : String) : RenderUrl :=
  let base :=
    match triggerUrl with
    | some r => r
    | none =>
      match instanceUrl with
      | some r => r
      | none => { path := pathname, params := [] }
  { path := base.path, params := setParam ("sections") (joinSections sections) base.params }

/-- One debounce gate shared by all listener-bound triggers of an
instance: the pending timer as deadline plus scheduled callback payload.
`debounceRun` replays a chronological list of `_debounce` calls starting
from a pending state and returns the callbacks that actually fire, each
with its firing time.  A call finding a pending timer whose deadline has
passed lets it fire first; otherwise the call clears the timer, exactly
as `clearTimeout(this._timeoutId); this._timeoutId = setTimeout(func, wait)`
does on the single shared timer field. -/
def debounceRun {β : Type} (wait : Nat) :
    List (Nat × β) → Option (Nat × β) → List (Nat × β)
| [], none => []
| [], some pending => [pending]
| (t, f) :: rest, none => debounceRun wait rest (some (t + wait, f))
| (t, f) :: rest, some pending =>
  if pending.1 ≤ t then pending :: debounceRun wait rest (some (t + wait, f))
  else debounceRun wait rest (some (t + wait, f))

/-- A chronological call list is a burst when each call arrives no
earlier than the previous one and strictly inside the debounce window
opened by it. -/
def isBurst {β : Type} (wait : Nat) : List (Nat × β) → Bool
| [] => true
| [_] => true
| (t, _) :: (t2, f2) :: rest =>
  decide (t ≤ t2) && decide (t2 < t + wait) && isBurst wait ((t2, f2) :: rest)

/-- The last element of a call list, with a default for the empty case. -/
def lastCall {β : Type} (d : Nat × β) : List (Nat × β) → Nat × β
| [] => d
| c :: rest => lastCall c rest

/-- Instance configuration with no history writes configured. -/
def cfg0 : ICfg := { updateUrl := none, updateTitle := none, historyMode := "replace" }

/-- Instance configuration that writes a new url and title. -/
def cfgHist : ICfg := { updateUrl := some "/new", updateTitle := some "T", historyMode := "replace" }

/-- Environment in which no section element is ever found. -/
def env0 : PatchEnv Nat := { sectionEl := fun _ => none, queryEl := fun _ _ => none }

/-- Environment in which every section fragment parses to element 9. -/
def env9 : PatchEnv Nat := { sectionEl := fun _ => some 9, queryEl := fun _ _ => none }

/-- Idle instance state: scoped, not loading, empty document. -/
def st0 : St Nat := { scopedFlag := true, loading := false, dom := [], hist := [], title := none }

/-- A trigger whose updates attribute parsed to a single empty object,
as produced by the attribute value consisting of one field-less entry. -/
def trigInvalidEntry : TriggerCfg :=
  { updatesAttr := [some { sectionId := JsVal.vundef, destination := JsVal.vundef,
                           updateMode := JsVal.vundef, query := JsVal.vundef }],
    modeAttr := none, queryAttr := none, sectionAttr := none, destAttr := none,
    closest := ClosestRes.noParent }

/-- A single-action trigger with explicit section and destination
attributes and no updates attribute. -/
def trigSingle : TriggerCfg :=
  { updatesAttr := [], modeAttr := none, queryAttr := none,
    sectionAttr := some "s1", destAttr := some "#missing",
    closest := ClosestRes.noParent }

/-- Idle state whose document contains one destination, but not the one
`trigSingle` points at. -/
def stOther : St Nat :=
  { scopedFlag := true, loading := false, dom := [("#other", [])], hist := [], title := none }

/-- Helper descriptor with explicit fields used in mode-semantics
statements. -/
def updWithMode (m : JsVal) : Update :=
  { sectionId := JsVal.vstr "s", destination := JsVal.vstr "#d",
    updateMode := m, query := JsVal.vundef }

/-- Environment whose section fragments all parse to the given element. -/
def envConst (e : Nat) : PatchEnv Nat :=
  { sectionEl := fun _ => some e, queryEl := fun _ _ => none }

/-- A batch holding one descriptor whose section and destination are both
the empty string. -/
def emptyStrBatch : List BatchEntry :=
  [some { sectionId := JsVal.vstr "", destination := JsVal.vstr "",
          updateMode := JsVal.vnull, query := JsVal.vundef }]

/-- Trigger carrying the empty-string batch. -/
def trigEmptyStr : TriggerCfg :=
  { updatesAttr := emptyStrBatch, modeAttr := none, queryAttr := none,
    sectionAttr := none, destAttr := none, closest := ClosestRes.noParent }

/-- A trigger with no attributes at all inside a recognized closest
section. -/
def trigImplicit : TriggerCfg :=
  { updatesAttr := [], modeAttr := none, queryAttr := none, sectionAttr := none,
    destAttr := none, closest := ClosestRes.found "main" "#shopify-section-main" }

/-- A trigger whose updates attribute parsed to a single null entry. -/
def trigNullEntry : TriggerCfg :=
  { updatesAttr := [none], modeAttr := none, queryAttr := none,
    sectionAttr := none, destAttr := none, closest := ClosestRes.noParent }

/-- C1: the claim says every activation fires the loading-ended event and
the indicator reset through guaranteed cleanup, with equal started/ended
counts, and never leaves the loading flag true.  Evaluating the embedded
`_handleTrigger` at a trigger whose updates attribute holds one field-less
descriptor shows the opposite: validation throws before the first
`_toggleLoading`, so the cleanup call in the finally block toggles the
idle flag to true and emits a spurious started event; the trace is
[error, started], the ended count is zero, and the instance is left with
its loading flag permanently true. -/
theorem c1_loading_stuck_eval :
    (handleTrigger cfg0 env0 trigInvalidEntry FetchOutcome.ok st0).1.loading = true ∧
    (handleTrigger cfg0 env0 trigInvalidEntry FetchOutcome.ok st0).2 = [Ev.error, Ev.started] ∧
    List.count Ev.ended (handleTrigger cfg0 env0 trigInvalidEntry FetchOutcome.ok st0).2 = 0 :=
  ⟨rfl, rfl, rfl⟩

/-- C2 counterexample: the claim says a patching failure, in particular a
destination element that is not found, makes the activation emit the
generic error event.  In this concrete run the destination selector of
the single descriptor is absent from the document, so the patch step
throws internally, yet the activation trace is [started, fetchStart,
ended] with no error event: `_updateSection` catches and only logs. -/
theorem c2_no_error_event_counterexample :
    List.lookup ("#missing") stOther.dom = none ∧
    (handleTrigger cfg0 env9 trigSingle FetchOutcome.ok stOther).2 =
      [Ev.started, Ev.fetchStart, Ev.ended] :=
  ⟨rfl, rfl⟩

/-- C3 counterexample: the claim says history and title stay unchanged
when any part of the DOM patch fails.  Here the destination element is
missing, the patch throws and is swallowed, and the history write and the
title update still happen. -/
theorem c3_history_after_patch_failure_counterexample :
    List.lookup ("#missing") stOther.dom = none ∧
    (handleTrigger cfgHist env9 trigSingle FetchOutcome.ok stOther).1.hist =
      [HistOp.replaceSt "/new"] ∧
    (handleTrigger cfgHist env9 trigSingle FetchOutcome.ok stOther).1.title = some "T" :=
  ⟨rfl, rfl, rfl⟩

/-- C4 counterexample: the claim says the validation pass rejects a
descriptor whose section or destination is the empty string and that an
invalid batch aborts before any network request.  The embedded
`_isValidUpdates` accepts the all-empty descriptor, and the activation
proceeds to issue the fetch. -/
theorem c4_empty_string_accepted_counterexample :
    isValidUpdates emptyStrBatch = true ∧
    Ev.fetchStart ∈ (handleTrigger cfg0 env0 trigEmptyStr FetchOutcome.ok st0).2 :=
  ⟨rfl, by show Ev.fetchStart ∈ [Ev.started, Ev.fetchStart, Ev.ended]; simp⟩

/-- C5: the claim says a null or absent insertion mode acts exactly like
replace, after like append and before like prepend.  Evaluating the
embedded switch shows the alias pairs and the null case do hold, but an
absent mode (undefined, as produced by a descriptor without the field)
matches no case of the switch and leaves the destination untouched,
while replace installs the fetched element as sole child: on a
destination holding child 1 the absent mode keeps [el 1] whereas replace
yields [el 9]. -/
theorem c5_absent_mode_noop_eval :
    patchOne (envConst 9) [("#d", [JNode.el 1])] (some (updWithMode JsVal.vundef)) =
      ([("#d", [JNode.el 1])], true) ∧
    patchOne (envConst 9) [("#d", [JNode.el 1])] (some (updWithMode (JsVal.vstr "replace"))) =
      ([("#d", [JNode.el 9])], true) ∧
    patchOne (envConst 9) [("#d", [JNode.el 1])] (some (updWithMode JsVal.vnull)) =
      patchOne (envConst 9) [("#d", [JNode.el 1])] (some (updWithMode (JsVal.vstr "replace"))) ∧
    patchOne (envConst 9) [("#d", [JNode.el 1])] (some (updWithMode (JsVal.vstr "after"))) =
      patchOne (envConst 9) [("#d", [JNode.el 1])] (some (updWithMode (JsVal.vstr "append"))) ∧
    patchOne (envConst 9) [("#d", [JNode.el 1])] (some (updWithMode (JsVal.vstr "before"))) =
      patchOne (envConst 9) [("#d", [JNode.el 1])] (some (updWithMode (JsVal.vstr "prepend"))) :=
  ⟨rfl, rfl, rfl, rfl, rfl⟩

/-- C6 counterexample: the claim says mode replace or unset removes all
prior children and inserts the extracted element as sole child.  With an
unset mode on a destination holding two children, the children survive
untouched and the extracted element is not inserted. -/
theorem c6_unset_mode_keeps_children_counterexample :
    (patchOne (envConst 9) [("#d", [JNode.el 1, JNode.el 2])]
        (some (updWithMode JsVal.vundef))).1 = [("#d", [JNode.el 1, JNode.el 2])] ∧
    [JNode.el 1, JNode.el 2] ≠ [JNode.el (9 : Nat)] :=
  ⟨rfl, by decide⟩

/-- Validity of one batch entry unfolded to an explicit shape: the entry
is an object whose section and destination fields are strings, of any
content including the empty string. -/
theorem validEntry_iff (u : BatchEntry) :
    (match u with
     | none => false
     | some v => isString v.sectionId && isString v.destination) = true ↔
      ∃ v s d, u = some v ∧ v.sectionId = JsVal.vstr s ∧ v.destination = JsVal.vstr d := by
  cases u with
  | none => simp
  | some v =>
    cases hs : v.sectionId <;> cases hd : v.destination <;>
      simp [isString, hs, hd]

/-- Batch validity unfolded entrywise. -/
theorem isValidUpdates_iff (us : List BatchEntry) :
    isValidUpdates us = true ↔
      ∀ u ∈ us, ∃ v s d, u = some v ∧ v.sectionId = JsVal.vstr s ∧
        v.destination = JsVal.vstr d := by
  rw [isValidUpdates, List.all_eq_true]
  constructor
  · intro h u hu
    exact (validEntry_iff u).mp (h u hu)
  · intro h u hu
    exact (validEntry_iff u).mpr (h u hu)

/-- C6 amended: for every destination with an arbitrary prior child list,
append leaves the prior children intact and adds the extracted element as
last child, prepend adds it first, replace removes all prior children and
leaves it as sole child; a descriptor with the mode field unset leaves
the destination children unchanged, because the switch of
`_updateSection` matches no case on undefined. -/
theorem c6_insertion_semantics_amended (cs : List (JNode Nat)) (e : Nat) :
    patchOne (envConst e) [("#d", cs)] (some (updWithMode (JsVal.vstr "append"))) =
      ([("#d", cs ++ [JNode.el e])], true) ∧
    patchOne (envConst e) [("#d", cs)] (some (updWithMode (JsVal.vstr "prepend"))) =
      ([("#d", JNode.el e :: cs)], true) ∧
    patchOne (envConst e) [("#d", cs)] (some (updWithMode (JsVal.vstr "replace"))) =
      ([("#d", [JNode.el e])], true) ∧
    patchOne (envConst e) [("#d", cs)] (some (updWithMode JsVal.vundef)) =
      ([("#d", cs)], true) := by
  refine ⟨?_, ?_, ?_, ?_⟩ <;> rfl

/-- C2 amended: the error event is emitted exactly when the activation
fails at the boundary guarded by the catch of `_handleTrigger`, that is
during resolution, validation or the fetch race; when those steps succeed
the trace is started, fetchStart, ended whatever the patch does, because
`_updateSection` swallows its own failures, including a missing
destination element, and nothing is thrown to the caller. -/
theorem c2_error_event_boundary_amended {α : Type} (cfg : ICfg) (env : PatchEnv α)
    (t : TriggerCfg) (fetch : FetchOutcome) (st : St α) (hl : st.loading = false) :
    List.count Ev.error (handleTrigger cfg env t fetch st).2 =
      (if activationFails st.scopedFlag t fetch = true then 1 else 0) ∧
    (activationFails st.scopedFlag t fetch = false →
      (handleTrigger cfg env t fetch st).2 = [Ev.started, Ev.fetchStart, Ev.ended]) := by
  unfold handleTrigger activationFails
  cases hres : resolveUpdates st.scopedFlag t with
  | error e => simp [toggleLoading, hl]; decide
  | ok p =>
    obtain ⟨b, us⟩ := p
    by_cases hv : isValidUpdates us = true
    · cases fetch <;> (simp [hv, toggleLoading, hl]; decide)
    · rw [Bool.not_eq_true] at hv
      simp [hv, toggleLoading, hl]; decide

/-- C3 amended: the history write and the title update happen exactly
when resolution, validation and the fetch race all succeed; a failure of
any of those leaves history and title untouched, but a failure inside the
DOM patch does not prevent them, because `_updateSection` swallows its
errors before `_updateHistory` runs. -/
theorem c3_history_on_boundary_success_amended {α : Type} (cfg : ICfg) (env : PatchEnv α)
    (t : TriggerCfg) (fetch : FetchOutcome) (st : St α) :
    (handleTrigger cfg env t fetch st).1.hist =
      (if activationFails st.scopedFlag t fetch = true then st.hist
       else (updateHistory cfg st.hist st.title).1) ∧
    (handleTrigger cfg env t fetch st).1.title =
      (if activationFails st.scopedFlag t fetch = true then st.title
       else (updateHistory cfg st.hist st.title).2) := by
  unfold handleTrigger activationFails
  cases hres : resolveUpdates st.scopedFlag t with
  | error e => simp [toggleLoading]
  | ok p =>
    obtain ⟨b, us⟩ := p
    by_cases hv : isValidUpdates us = true
    · cases fetch <;> simp [hv, toggleLoading]
    · rw [Bool.not_eq_true] at hv
      simp [hv, toggleLoading]

/-- C4 amended: the final validation pass accepts any descriptor that is
an object whose section and destination are strings, the empty string
included; a batch containing an entry outside that shape aborts the
activation before any network request, with the error event emitted. -/
theorem c4_validation_amended {α : Type} (cfg : ICfg) (env : PatchEnv α)
    (fetch : FetchOutcome) (st : St α) (t : TriggerCfg)
    (hne : t.updatesAttr.isEmpty = false)
    (hinv : isValidUpdates t.updatesAttr = false) :
    Ev.fetchStart ∉ (handleTrigger cfg env t fetch st).2 ∧
    Ev.error ∈ (handleTrigger cfg env t fetch st).2 ∧
    (∀ us : List BatchEntry, isValidUpdates us = true ↔
      ∀ u ∈ us, ∃ v s d, u = some v ∧ v.sectionId = JsVal.vstr s ∧
        v.destination = JsVal.vstr d) := by
  refine ⟨?_, ?_, fun us => isValidUpdates_iff us⟩ <;>
  · unfold handleTrigger resolveUpdates
    rw [hne]
    cases hL : st.loading <;> simp [hinv, toggleLoading, hL]

/-- Removing a key removes every value it carried. -/
theorem getAll_removeParam_self (k : String) :
    ∀ ps : List (String × String), getAll k (removeParam k ps) = [] := by
  intro ps
  induction ps with
  | nil => rfl
  | cons p rest ih =>
    rw [removeParam]
    by_cases hp : p.1 = k
    · rw [if_pos hp]; exact ih
    · rw [if_neg hp, getAll, if_neg hp]; exact ih

/-- Removing one key leaves the values of every other key untouched. -/
theorem getAll_removeParam_ne (k k2 : String) (h : k2 ≠ k) :
    ∀ ps : List (String × String), getAll k2 (removeParam k ps) = getAll k2 ps := by
  intro ps
  induction ps with
  | nil => rfl
  | cons p rest ih =>
    rw [removeParam, getAll]
    by_cases hp : p.1 = k
    · rw [if_pos hp, if_neg (by rw [hp]; exact fun e => h e.symm), ih]
    · rw [if_neg hp, getAll]
      by_cases hp2 : p.1 = k2
      · rw [if_pos hp2, if_pos hp2, ih]
      · rw [if_neg hp2, if_neg hp2, ih]

/-- After a set, the key carries exactly the written value. -/
theorem getAll_setParam_self (k v : String) :
    ∀ ps : List (String × String), getAll k (setParam k v ps) = [v] := by
  intro ps
  induction ps with
  | nil => rw [setParam, getAll, if_pos rfl, getAll]
  | cons p rest ih =>
    rw [setParam]
    by_cases hp : p.1 = k
    · rw [if_pos hp, getAll, if_pos rfl, getAll_removeParam_self]
    · rw [if_neg hp, getAll, if_neg hp]; exact ih

/-- A set leaves the values of every other key untouched. -/
theorem getAll_setParam_ne (k v k2 : String) (h : k2 ≠ k) :
    ∀ ps : List (String × String), getAll k2 (setParam k v ps) = getAll k2 ps := by
  intro ps
  induction ps with
  | nil => simp [setParam, getAll, Ne.symm h]
  | cons p rest ih =>
    by_cases hp : p.1 = k
    · simp [setParam, getAll, hp, Ne.symm h, getAll_removeParam_ne k k2 h]
    · by_cases hp2 : p.1 = k2
      · simp [setParam, getAll, hp, hp2, ih, h]
      · simp [setParam, getAll, hp, hp2, ih, h]

/-- C8: the request url takes the trigger-level render-url when present,
else the instance-level one, else the page pathname; the sections
parameter of the result is exactly the comma-joined then trimmed section
list, and every other query parameter of the chosen base survives with
its values in order. -/
theorem c8_build_url (s : List String) (r ri : RenderUrl) (iu : Option RenderUrl)
    (p : String) :
    (getAll ("sections") (buildUrl s (some r) iu p).params = [joinSections s] ∧
     (buildUrl s (some r) iu p).path = r.path ∧
     ∀ k, k ≠ "sections" → getAll k (buildUrl s (some r) iu p).params = getAll k r.params) ∧
    (getAll ("sections") (buildUrl s none (some ri) p).params = [joinSections s] ∧
     (buildUrl s none (some ri) p).path = ri.path ∧
     ∀ k, k ≠ "sections" →
       getAll k (buildUrl s none (some ri) p).params = getAll k ri.params) ∧
    (buildUrl s none none p).path = p ∧
    (buildUrl s none none p).params = [("sections", joinSections s)] := by
  refine ⟨⟨getAll_setParam_self _ _ _, rfl, ?_⟩,
          ⟨getAll_setParam_self _ _ _, rfl, ?_⟩, rfl, rfl⟩
  · intro k hk; exact getAll_setParam_ne _ _ _ hk _
  · intro k hk; exact getAll_setParam_ne _ _ _ hk _

/-- C8 witness: concrete base with one foreign parameter and a stale
sections parameter; the build keeps the foreign parameter and rewrites
the sections value. -/
theorem c8_build_url_witness :
    (("x" : String) ≠ "sections") ∧
    getAll ("x") (buildUrl ["a", "b"]
      (some { path := "/p", params := [("x", "1"), ("sections", "old")] })
      none "/q").params = ["1"] ∧
    getAll ("sections") (buildUrl ["a", "b"]
      (some { path := "/p", params := [("x", "1"), ("sections", "old")] })
      none "/q").params = ["a,b"] :=
  ⟨by decide,
   (c8_build_url ["a", "b"] { path := "/p", params := [("x", "1"), ("sections", "old")] }
     { path := "", params := [] } none "/q").1.2.2 ("x") (by decide),
   by rw [(c8_build_url ["a", "b"]
        { path := "/p", params := [("x", "1"), ("sections", "old")] }
        { path := "", params := [] } none "/q").1.1]; rfl⟩

/-- Replaying the tail of a burst against the pending timer armed by the
previous call: every call arrives strictly before the pending deadline,
cancels it and re-arms, so only the timer armed by the last call fires. -/
theorem debounceRun_burst_aux {β : Type} (wait : Nat) :
    ∀ (cs : List (Nat × β)) (t : Nat) (f : β),
      isBurst wait ((t, f) :: cs) = true →
      debounceRun wait cs (some (t + wait, f)) =
        [((lastCall (t, f) cs).1 + wait, (lastCall (t, f) cs).2)] := by
  intro cs
  induction cs with
  | nil => intro t f _; rfl
  | cons c cs ih =>
    intro t f hb
    obtain ⟨t2, f2⟩ := c
    rw [isBurst] at hb
    simp only [Bool.and_eq_true, decide_eq_true_eq] at hb
    obtain ⟨⟨h1, h2⟩, h3⟩ := hb
    rw [debounceRun]
    rw [if_neg (by omega : ¬((t + wait, f).1 ≤ t2))]
    exact ih t2 f2 h3

/-- C7: a burst of rapid `_debounce` calls on the shared per-instance
timer, from any mixture of listener-bound triggers (the payload carries
the scheduled callback and hence the trigger), fires exactly one
callback, at the debounce interval after the last call of the burst, and
the callback fired is the one scheduled by that most recent call. -/
theorem c7_debounce_single_fire {β : Type} (wait t : Nat) (f : β) (cs : List (Nat × β))
    (hb : isBurst wait ((t, f) :: cs) = true) :
    debounceRun wait ((t, f) :: cs) none =
      [((lastCall (t, f) cs).1 + wait, (lastCall (t, f) cs).2)] := by
  have h0 : debounceRun wait ((t, f) :: cs) none =
      debounceRun wait cs (some (t + wait, f)) := rfl
  rw [h0]
  exact debounceRun_burst_aux wait cs t f hb

/-- C7 witness: three calls from three different triggers at 0, 100 and
250 with a 300 ms interval are one burst; exactly one callback fires, at
550, and it is the one of the third call. -/
theorem c7_debounce_single_fire_witness :
    isBurst 300 [((0 : Nat), (1 : Nat)), (100, 2), (250, 3)] = true ∧
    debounceRun 300 [((0 : Nat), (1 : Nat)), (100, 2), (250, 3)] none = [(550, 3)] :=
  ⟨by decide, c7_debounce_single_fire 300 0 1 [(100, 2), (250, 3)] (by decide)⟩

/-- Resolution started with an unscoped instance never turns the flag
back on: the only write in the source sets it to false. -/
theorem resolveUpdates_scoped_false (t : TriggerCfg) (b : Bool) (us : List BatchEntry)
    (h : resolveUpdates false t = Except.ok (b, us)) : b = false := by
  cases b
  · rfl
  · exfalso
    unfold resolveUpdates resolveSingle at h
    cases he : t.updatesAttr.isEmpty <;> rw [he] at h
    · simp at h
    · cases hc : t.closest <;> rw [hc] at h
      · rcases hs : jsOrNull t.sectionAttr with _ | s <;>
          rcases hd : jsOrNull t.destAttr with _ | d <;>
            simp [hs, hd] at h
      · simp at h
      · simp at h

/-- An activation on an instance whose scoped flag is already false never
sets it back to true: the only assignment in `_handleTrigger` writes
false. -/
theorem handleTrigger_keeps_unscoped {α : Type} (cfg : ICfg) (env : PatchEnv α)
    (t : TriggerCfg) (fetch : FetchOutcome) (st : St α) (h : st.scopedFlag = false) :
    (handleTrigger cfg env t fetch st).1.scopedFlag = false := by
  unfold handleTrigger
  cases hres : resolveUpdates st.scopedFlag t with
  | error e => simpa using h
  | ok p =>
    obtain ⟨b, us⟩ := p
    have hb : b = false := resolveUpdates_scoped_false t b us (h ▸ hres)
    by_cases hv : isValidUpdates us = true
    · cases fetch <;> simp [hv, hb]
    · rw [Bool.not_eq_true] at hv
      simp [hv, hb]

/-- Single-action resolution of a trigger carrying neither a section nor
a destination attribute, inside a recognized closest section: the scoped
flag comes back false and the descriptor is synthesized wholly from the
closest section. -/
theorem resolveSingle_both_missing (sf : Bool) (t : TriggerCfg) (c : String × String)
    (hs : jsOrNull t.sectionAttr = none) (hd : jsOrNull t.destAttr = none) :
    resolveSingle sf t (some c) =
      Except.ok (false,
        [some { sectionId := JsVal.vstr c.1, destination := JsVal.vstr c.2,
                updateMode := JsVal.vstr ((jsOrNull t.modeAttr).getD "replace"),
                query := match jsOrNull t.queryAttr with
                         | some q => JsVal.vstr q
                         | none => JsVal.vnull }]) := by
  unfold resolveSingle
  rw [hs, hd]
  rfl

/-- C9: handling a single-action trigger that carries neither a section
nor a destination attribute but sits inside a closest recognized section
sets the scoped flag of the instance to false, whatever the fetch does
afterwards; once false the flag survives every later activation with any
trigger configuration, and an element lookup of an unscoped instance
searches the whole document where a scoped one searches the component
subtree. -/
theorem c9_scoped_escape {α : Type} (cfg : ICfg) (env : PatchEnv α)
    (fetch : FetchOutcome) (st : St α) (t : TriggerCfg) (hu : t.updatesAttr = [])
    (hs : jsOrNull t.sectionAttr = none) (hd : jsOrNull t.destAttr = none)
    (sec dest : String) (hc : t.closest = ClosestRes.found sec dest) :
    (handleTrigger cfg env t fetch st).1.scopedFlag = false ∧
    (∀ (cfg2 : ICfg) (env2 : PatchEnv α) (t2 : TriggerCfg) (fetch2 : FetchOutcome)
       (st2 : St α), st2.scopedFlag = false →
       (handleTrigger cfg2 env2 t2 fetch2 st2).1.scopedFlag = false) ∧
    findElement false false = SearchScope.wholeDocument ∧
    findElement true false = SearchScope.subtree := by
  refine ⟨?_, fun cfg2 env2 t2 fetch2 st2 h2 =>
    handleTrigger_keeps_unscoped cfg2 env2 t2 fetch2 st2 h2, rfl, rfl⟩
  have hres2 : resolveUpdates st.scopedFlag t =
      resolveSingle st.scopedFlag t (some (sec, dest)) := by
    unfold resolveUpdates
    rw [hu, hc]
    rfl
  unfold handleTrigger
  rw [hres2, resolveSingle_both_missing st.scopedFlag t (sec, dest) hs hd]
  simp only [isValidUpdates, isString, List.all_cons, List.all_nil, Bool.and_true, if_true]
  cases fetch <;> simp

/-- C9 witness: a concrete trigger with only a closest section, handled
on a scoped idle instance, comes back unscoped. -/
theorem c9_scoped_escape_witness :
    trigImplicit.updatesAttr = [] ∧
    st0.scopedFlag = true ∧
    (handleTrigger cfg0 env0 trigImplicit FetchOutcome.ok st0).1.scopedFlag = false :=
  ⟨rfl, rfl,
   (c9_scoped_escape cfg0 env0 FetchOutcome.ok st0 trigImplicit rfl rfl rfl
     "main" "#shopify-section-main" rfl).1⟩

/-- C10: the event type computed for any tag name is never falsy — it is
the entry of the fixed tag table when the tag is listed and the wildcard
entry click otherwise — so the invalid-event-type throw of
`_addEventListeners` is unreachable and binding the listeners over any
trigger list succeeds with exactly one binding per trigger, in order,
each carrying the event type of its tag. -/
theorem c10_event_type_total {τ : Type} (tagOf : τ → String) (triggers : List τ) :
    (∀ tag : String, getEventType tag ≠ "") ∧
    addEventListeners tagOf triggers =
      Except.ok (triggers.map fun tr => (tr, getEventType (tagOf tr))) ∧
    (∀ tag : String, List.lookup tag acceptedEvents = none → getEventType tag = "click") := by
  have hne : ∀ tag : String, getEventType tag ≠ "" := by
    intro tag
    unfold getEventType
    cases hl : List.lookup tag acceptedEvents with
    | none => decide
    | some ev =>
      by_cases he : ev = ""
      · simp [he]; decide
      · simp [he]
  refine ⟨hne, ?_, ?_⟩
  · induction triggers with
    | nil => rfl
    | cons tr rest ih =>
      rw [addEventListeners, if_neg (hne (tagOf tr)), ih, List.map]
  · intro tag h
    unfold getEventType
    rw [h]
    decide

/-- C10 witness: a listed and an unlisted tag both bind, with the table
event and the wildcard event respectively. -/
theorem c10_event_type_total_witness :
    getEventType ("form") ≠ "" ∧
    addEventListeners (fun x : String => x) [("form" : String), ("video" : String)] =
      Except.ok [("form", "submit"), ("video", "click")] :=
  ⟨(c10_event_type_total (fun x : String => x) []).1 ("form"),
   by rw [(c10_event_type_total (fun x : String => x)
       [("form" : String), ("video" : String)]).2.1]; rfl⟩

/-- C2 amended witness: a concrete activation whose resolution,
validation and fetch all succeed has error count zero as the amended
claim computes it. -/
theorem c2_error_event_boundary_amended_witness :
    stOther.loading = false ∧
    List.count Ev.error (handleTrigger cfg0 env9 trigSingle FetchOutcome.ok stOther).2 =
      (if activationFails stOther.scopedFlag trigSingle FetchOutcome.ok = true
       then 1 else 0) :=
  ⟨rfl, (c2_error_event_boundary_amended cfg0 env9 trigSingle FetchOutcome.ok
     stOther rfl).1⟩

/-- C4 amended witness: a batch with a null entry is invalid, aborts
before any fetch and emits the error event. -/
theorem c4_validation_amended_witness :
    trigNullEntry.updatesAttr.isEmpty = false ∧
    isValidUpdates trigNullEntry.updatesAttr = false ∧
    Ev.fetchStart ∉ (handleTrigger cfg0 env0 trigNullEntry FetchOutcome.ok st0).2 :=
  ⟨rfl, rfl,
   (c4_validation_amended cfg0 env0 FetchOutcome.ok st0 trigNullEntry rfl rfl).1⟩
